import Mathlib

/-!
A verification development for the RookReader container / image-loading core.

The Rust sources under `src-tauri/src/container` are shallowly embedded here:
pure helper functions become Lean functions; the stateful `ImageLoader` becomes
explicit state passing over a `Cache` / `LoaderState`; external libraries
(the `image` codec crate, `natord`, archive readers, the filesystem) are
modelled as explicit inputs (byte lists, probe/codec parameters, entry lists).
Machine integers (`u32`, `usize`) are modelled as `Nat`; the only place where
the `u32` range matters (`image::resize` dimension clamping) carries the bound
`u32Max` explicitly.  Strings are compared through their character lists so
that every definition evaluates inside the kernel.
-/

namespace RookReader

/-- `u32::MAX`, used by `DynamicImage::resize(u32::MAX, height, filter)`. -/
def u32Max : Nat := 4294967295

/-- Rust `str::to_lowercase`, modelled as per-character ASCII folding over the
character list (all filenames and suffixes of interest are ASCII). -/
def lowerChars (s : String) : List Char := s.data.map Char.toLower

/-- Rust `str::ends_with`, on character lists. -/
def endsWithChars (s : List Char) (suffix : String) : Bool :=
  suffix.data.isSuffixOf s

/-- `Image` (container/image.rs): raw encoded bytes plus the probed dimensions. -/
structure Image where
  data : List Nat
  width : Nat
  height : Nat
deriving DecidableEq

/-- The error kinds of `error.rs` produced by the container code embedded here.
`entryNotFound` is `Error::EntryNotFound`, `epub` is `Error::Epub` (rbook read
failures), `other` is `Error::Other` (the `From<String>` conversion used by
`Image::new(..)?`), `io`/`image` cover the remaining `#[from]` conversions. -/
inductive Err where
  | entryNotFound (msg : String)
  | epub (msg : String)
  | image (msg : String)
  | io (msg : String)
  | other (msg : String)
deriving DecidableEq

/-- `<dyn Container>::is_supported_format` (container/traits.rs, lines 72-78):
case-insensitive suffix match against `.pdf`, `.rar`, `.zip`, `.epub`. -/
def is_supported_format (filename : String) : Bool :=
  let lowercase_name := lowerChars filename
  endsWithChars lowercase_name ".pdf"
    || endsWithChars lowercase_name ".rar"
    || endsWithChars lowercase_name ".zip"
    || endsWithChars lowercase_name ".epub"

/-- `Image::is_supported_format` (container/image.rs, lines 46-60): the
supported *image* suffixes used to filter directory / archive entries. -/
def Image.is_supported_format (filename : String) : Bool :=
  let lowercase_name := lowerChars filename
  endsWithChars lowercase_name ".apng"
    || endsWithChars lowercase_name ".gif"
    || endsWithChars lowercase_name ".jpg"
    || endsWithChars lowercase_name ".jpeg"
    || endsWithChars lowercase_name ".jpe"
    || endsWithChars lowercase_name ".jif"
    || endsWithChars lowercase_name ".jfif"
    || endsWithChars lowercase_name ".png"
    || endsWithChars lowercase_name ".svg"
    || endsWithChars lowercase_name ".webp"

/-- `ImageLoader::new` (container/image_loader.rs, line 64) sizes its thread
pool as `ThreadPool::new(min(1, num_cpus::get() / 2))`. -/
def image_loader_pool_threads (numCpus : Nat) : Nat :=
  min 1 (numCpus / 2)

/-- The pool size the spec (and the code's own comment, "Use half of the
available CPU cores for preloading") demands: `max(1, n / 2)`.  Stated
separately so it can be compared with `image_loader_pool_threads`. -/
def spec_pool_threads (numCpus : Nat) : Nat :=
  max 1 (numCpus / 2)

/-! ### The `natord` comparator

`DirectoryContainer::new`, `ZipContainer::new`, `RarContainer::new` and the
`EpubContainer` fallback sort entries with `natord::compare_ignore_case`: the
external `natord` crate's natural ordering, which lowercases both strings and
walks them left to right, comparing maximal runs of ASCII digits by their
numeric value and everything else by code point.  It is modelled here by
tokenizing each string into digit runs and single characters and comparing the
token lists lexicographically; for a digit run against a non-digit character
the comparison by code point is decided by whether the non-digit lies below
`'0'` or above `'9'` (the ASCII digits are contiguous). -/

/-- One token of the natural-order tokenization: a maximal digit run (by
numeric value) or a single non-digit character. -/
inductive Tok where
  | num (n : Nat)
  | chr (c : Char)
deriving DecidableEq

/-- Tokenizer worker: walks the characters once, carrying the numeric value of
the digit run currently being consumed (`some v`) or `none` outside a run. -/
def tokenizeAux : List Char → Option Nat → List Tok
  | [], none => []
  | [], some v => [.num v]
  | c :: cs, none =>
    if c.isDigit then tokenizeAux cs (some (c.toNat - 48))
    else .chr c :: tokenizeAux cs none
  | c :: cs, some v =>
    if c.isDigit then tokenizeAux cs (some (v * 10 + (c.toNat - 48)))
    else .num v :: .chr c :: tokenizeAux cs none

/-- Tokenize a character list into maximal digit runs and single characters. -/
def tokenize (cs : List Char) : List Tok := tokenizeAux cs none

/-- Compare two tokens the way `natord` compares the underlying characters:
digit runs by value, characters by code point; a digit run against a non-digit
character compares like any digit against that character. -/
def cmpTok : Tok → Tok → Ordering
  | .num m, .num n => compare m n
  | .chr c, .chr d => compare c.toNat d.toNat
  | .num _, .chr c => if c.toNat < 48 then .gt else .lt
  | .chr c, .num _ => if c.toNat < 48 then .lt else .gt

/-- Lexicographic comparison of token lists. -/
def lexCompare : List Tok → List Tok → Ordering
  | [], [] => .eq
  | [], _ :: _ => .lt
  | _ :: _, [] => .gt
  | x :: xs, y :: ys =>
    match cmpTok x y with
    | .eq => lexCompare xs ys
    | o => o

/-- `natord::compare_ignore_case`, the comparator passed to `sort_by` in the
container constructors. -/
def natord_compare_ignore_case (a b : String) : Ordering :=
  lexCompare (tokenize (lowerChars a)) (tokenize (lowerChars b))

/-- The "less or equal" view of the comparator.  `slice::sort_by(cmp)` is a
stable sort by `cmp`; it is modelled by the stable `List.insertionSort` over
this relation. -/
def NatLeR (a b : String) : Prop :=
  natord_compare_ignore_case a b ≠ Ordering.gt

instance : DecidableRel NatLeR := fun a b =>
  inferInstanceAs (Decidable (natord_compare_ignore_case a b ≠ Ordering.gt))

/-- The entry list a `ZipContainer` builds at construction
(container/zip_container.rs, lines 136-142): the in-archive file names
filtered by `Image::is_supported_format` and sorted naturally. -/
def zip_entries (names : List String) : List String :=
  (names.filter Image.is_supported_format).insertionSort NatLeR

/-- One filesystem directory entry as seen by `read_dir`. -/
structure DirEntryFs where
  name : String
  isDir : Bool

/-- The entry list a `DirectoryContainer` builds at construction
(container/directory_container.rs, lines 113-144): skip subdirectories, keep
names passing `Image::is_supported_format`, sort naturally. -/
def directory_entries (files : List DirEntryFs) : List String :=
  ((((files.filter (fun f => !f.isDir)).map (fun f => f.name)).filter
      Image.is_supported_format)).insertionSort NatLeR

/-! ### `Image::new` and the two `load_image` helpers named by the claims -/

/-- The dimension probing the `image` crate performs inside `Image::new`
(`ImageReader::with_guessed_format` + `into_dimensions`), as an explicit
parameter: bytes to dimensions, or the error message `Image::new` builds. -/
abbrev Probe := List Nat → Except String (Nat × Nat)

/-- `Image::new` (container/image.rs, lines 21-38): keep the raw bytes, store
the probed dimensions; fail with the probe's message. -/
def Image.new (probe : Probe) (data : List Nat) : Except String Image :=
  match probe data with
  | .ok (w, h) => .ok ⟨data, w, h⟩
  | .error e => .error e

/-- One member of an in-memory ZIP archive: its in-archive name and its
(uncompressed) content. -/
structure ZipEntryData where
  name : String
  bytes : List Nat
deriving DecidableEq

/-- The old-generation container error struct (container/container.rs, lines
47-55): a message plus optional path/entry context.  It has no error kinds. -/
structure ContainerError where
  message : String
  path : Option String
  entry : Option String
deriving DecidableEq

/-- `zip::ZipArchive::by_name` over the in-memory archive listing: the content
of the first member with the given name. -/
def zipByName (archive : List ZipEntryData) (entry : String) : Option (List Nat) :=
  (archive.find? (fun e => e.name == entry)).map (fun e => e.bytes)

/-- `load_image` (container/zip_container.rs, lines 166-207): look the entry
up by name in the whole archive, read its bytes and probe them via
`Image::new`.  Error messages keep the code's prefixes; the display of the
wrapped library error is not modelled. -/
def zip_load_image (probe : Probe) (path : String) (archive : List ZipEntryData)
    (entry : String) : Except ContainerError Image :=
  match zipByName archive entry with
  | none => .error ⟨"Failed to get entry. ", some path, some entry⟩
  | some buffer =>
    match Image.new probe buffer with
    | .ok image => .ok image
    | .error e => .error ⟨e, some path, some entry⟩

/-- One image resource of an EPUB manifest as `rbook` exposes it: its key (if
any) and the outcome of `read_bytes`. -/
structure EpubResource where
  key : Option String
  bytes : Except String (List Nat)

/-- An opened EPUB: its manifest's image resources (in manifest order) and its
metadata entries as (property, value) pairs (in `entries()` order). -/
structure EpubData where
  images : List EpubResource
  metadata : List (String × String)

/-- The resource lookup of the EPUB `load_image`/`create_thumbnail` helpers:
`images().find(|image| image.key().unwrap_or_default() == entry)`. -/
def epubFindImage (epub : EpubData) (entry : String) : Option EpubResource :=
  epub.images.find? (fun r => r.key.getD "" == entry)

/-- `load_image` (container/epub_container.rs, lines 123-137): find the
resource by key, else `Error::EntryNotFound`; read its bytes (`?` wraps rbook
failures as `Error::Epub`); build the `Image` (`?` wraps the `String` error of
`Image::new` as `Error::Other`). -/
def epub_load_image (probe : Probe) (epub : EpubData) (entry : String) :
    Except Err Image :=
  match epubFindImage epub entry with
  | none => .error (.entryNotFound ("[EPUB] Resource not found: " ++ entry))
  | some resource =>
    match resource.bytes with
    | .error e => .error (.epub e)
    | .ok buffer =>
      match Image.new probe buffer with
      | .ok image => .ok image
      | .error e => .error (.other e)

/-- `EpubContainer::is_novel` (container/epub_container.rs, lines 105-119).
The argument is the outcome of `Epub::options().strict(false).open(..)`:
`none` when the file cannot be opened at call time. -/
def EpubContainer.is_novel (opened : Option EpubData) : Bool :=
  match opened with
  | none => false
  | some epub =>
    match epub.metadata.find? (fun meta => meta.1 == "rendition:layout") with
    | none => true
    | some meta => meta.2 != "pre-paginated"

/-! ### The `ImageLoader` (container/image_loader.rs) -/

/-- `image::imageops::FilterType`. -/
inductive FilterType where
  | nearest | triangle | catmullRom | gaussian | lanczos3
deriving DecidableEq

/-- A decoded raster image (`image::DynamicImage`): dimensions plus pixels. -/
structure DynImage where
  width : Nat
  height : Nat
  pixels : List Nat
deriving DecidableEq

/-- The operations of the external `image` crate used on the loader's resize
path: decoding (`ImageReader::with_guessed_format` + `decode`), pixel
resampling at fixed target dimensions, and JPEG encoding at a quality.  The
encode is fallible (`JpegEncoder::encode_image` can fail, e.g. when a
dimension exceeds JPEG's 65535-pixel limit); its error propagates. -/
structure Codec where
  decode : List Nat → Except Err DynImage
  scale : DynImage → Nat → Nat → FilterType → List Nat
  jpegEncode : Nat → DynImage → Except Err (List Nat)

/-- Rounding to the nearest integer (`f64::round` on the nonnegative values
occurring here), into `Nat`. -/
def roundNat (q : ℚ) : Nat := (round q).toNat

/-- `image`'s `resize_dimensions(width, height, nwidth, nheight, fill: false)`:
dimensions preserving aspect ratio within the bounds, each at least 1 and
clamped to `u32::MAX`.  The `f64` ratio arithmetic is modelled exactly in `ℚ`. -/
def resize_dimensions (width height nwidth nheight : Nat) : Nat × Nat :=
  let wratio : ℚ := (nwidth : ℚ) / (width : ℚ)
  let hratio : ℚ := (nheight : ℚ) / (height : ℚ)
  let ratio := min wratio hratio
  let nw := max (roundNat ((width : ℚ) * ratio)) 1
  let nh := max (roundNat ((height : ℚ) * ratio)) 1
  if u32Max < nw then
    (u32Max, max (roundNat ((height : ℚ) * ((u32Max : ℚ) / (width : ℚ)))) 1)
  else if u32Max < nh then
    (max (roundNat ((width : ℚ) * ((u32Max : ℚ) / (height : ℚ)))) 1, u32Max)
  else
    (nw, nh)

/-- `DynamicImage::resize(nwidth, nheight, filter)`: identity when the bounds
equal the current dimensions, otherwise resample at the dimensions computed
by `resize_dimensions`. -/
def dyn_resize (codec : Codec) (img : DynImage) (nwidth nheight : Nat)
    (filter : FilterType) : DynImage :=
  if nwidth = img.width ∧ nheight = img.height then img
  else
    let dims := resize_dimensions img.width img.height nwidth nheight
    ⟨dims.1, dims.2, codec.scale img dims.1 dims.2 filter⟩

/-- `resize_image` (container/image_loader.rs, lines 238-254): decode, resize
to the bounds `(u32::MAX, height)`, re-encode as JPEG at quality 80; the `?`
on `encode_image` propagates the encoder's error. -/
def resize_image (codec : Codec) (image : Image) (height : Nat)
    (resize_method : FilterType) : Except Err Image :=
  match codec.decode image.data with
  | .error e => .error e
  | .ok decoded =>
    let scaled_image := dyn_resize codec decoded u32Max height resize_method
    match codec.jpegEncode 80 scaled_image with
    | .error e => .error e
    | .ok buffer => .ok ⟨buffer, scaled_image.width, scaled_image.height⟩

/-- The `Container` trait object the loader composes over
(container/traits.rs): the entry list and the per-entry operations. -/
structure ContainerM where
  entries : List String
  getImage : String → Except Err Image
  getThumbnail : String → Except Err Image

/-- `load_image` (container/image_loader.rs, lines 217-235): load through the
container, then resize only when `max_image_height > 0` and the image is
taller than it. -/
def load_image (codec : Codec) (container : ContainerM) (entry : String)
    (max_image_height : Nat) (resize_method : FilterType) : Except Err Image :=
  match container.getImage entry with
  | .error e => .error e
  | .ok image =>
    if 0 < max_image_height ∧ max_image_height < image.height then
      resize_image codec image max_image_height resize_method
    else
      .ok image

/-- The loader cache (`DashMap<String, Arc<Image>>`), as an association list
whose first binding for a key is its value. -/
abbrev Cache := List (String × Image)

/-- `DashMap::get`. -/
def cacheGet (cache : Cache) (entry : String) : Option Image :=
  (cache.find? (fun kv => kv.1 == entry)).map (fun kv => kv.2)

/-- `DashMap::insert`. -/
def cacheInsert (cache : Cache) (entry : String) (image : Image) : Cache :=
  (entry, image) :: cache

/-- `ImageLoader::get_image_from_cache` (lines 81-87). -/
def get_image_from_cache (cache : Cache) (entry : String) : Option Image :=
  cacheGet cache entry

/-- `ImageLoader::get_image` (lines 105-120): serve from the cache, otherwise
load (and resize) through the container and insert.  Returns the image
together with the updated cache. -/
def get_image (codec : Codec) (container : ContainerM) (max_image_height : Nat)
    (resize_method : FilterType) (cache : Cache) (entry : String) :
    Except Err (Image × Cache) :=
  match get_image_from_cache cache entry with
  | some image => .ok (image, cache)
  | none =>
    match load_image codec container entry max_image_height resize_method with
    | .error e => .error e
    | .ok image => .ok (image, cacheInsert cache entry image)

/-- `ImageLoader::get_preview_image` (lines 139-147): `none` when the full
image is cached, otherwise the container's thumbnail.  The (unmodified) cache
is returned so the frame property can be stated. -/
def get_preview_image (container : ContainerM) (cache : Cache) (entry : String) :
    Except Err (Option Image × Cache) :=
  match get_image_from_cache cache entry with
  | some _ => .ok (none, cache)
  | none =>
    match container.getThumbnail entry with
    | .error e => .error e
    | .ok thumbnail => .ok (some thumbnail, cache)

/-- The loader state relevant to preloading: the cache and the store of all
cancellation tokens ever allocated (each an `Arc<AtomicBool>` value), with
`current` the index of the one held in `is_preloading_cancel_requested`.
A fresh `Arc::new(AtomicBool::new(false))` appends a fresh `false` entry. -/
structure LoaderState where
  cache : Cache
  tokens : List Bool
  current : Nat
deriving DecidableEq

/-- A task handed to the worker pool by `request_preload`: the moved entry
name and the captured (cloned) token. -/
structure PreloadTask where
  entry : String
  tokenId : Nat
deriving DecidableEq

/-- `ImageLoader::cancel_preload` (lines 210-213): store `true` into the
current token. -/
def cancel_preload (s : LoaderState) : LoaderState :=
  { s with tokens := s.tokens.set s.current true }

/-- `ImageLoader::request_preload` (lines 159-204): compute the clamped range
`[begin_index, min(begin_index+count, entries.len()))`; return unchanged on an
empty range; otherwise cancel the previous generation, install a fresh token,
and schedule one task per not-already-cached entry of the range.  Returns the
new state and the scheduled tasks. -/
def request_preload (container : ContainerM) (s : LoaderState)
    (begin_index count : Nat) : LoaderState × List PreloadTask :=
  let entries := container.entries
  let total_pages := entries.length
  let e := min (begin_index + count) total_pages
  if e ≤ begin_index then (s, [])
  else
    let s1 := cancel_preload s
    let s2 : LoaderState :=
      { s1 with tokens := s1.tokens ++ [false], current := s1.tokens.length }
    let entries_to_preload := (entries.drop begin_index).take (e - begin_index)
    let tasks :=
      (entries_to_preload.filter (fun en => (cacheGet s2.cache en).isNone)).map
        (fun en => { entry := en, tokenId := s2.current : PreloadTask })
    (s2, tasks)

/-- The body of one scheduled preload task (lines 186-200): exit if the
captured token is already cancelled; otherwise load, inserting on success and
logging (dropping) the error on failure.  `token` is the captured token's
value when the task starts. -/
def run_preload_task (codec : Codec) (container : ContainerM)
    (max_image_height : Nat) (resize_method : FilterType) (cache : Cache)
    (token : Bool) (entry : String) : Cache :=
  if token then cache
  else
    match load_image codec container entry max_image_height resize_method with
    | .ok image => cacheInsert cache entry image
    | .error _ => cache

/-! ### Concrete fixtures used by witnesses and counterexamples -/

/-- A stand-in for a valid encoded image (the probe below accepts exactly
these bytes). -/
def demoBytes : List Nat := [137, 80, 78, 71]

/-- Bytes the demo probe rejects. -/
def demoBadBytes : List Nat := [255, 216]

/-- A probe recognising `demoBytes` as a 1x1 image. -/
def demoProbe : Probe := fun bytes =>
  if bytes == demoBytes then .ok (1, 1)
  else .error "Failed to get image size. "

/-- A tall source image (50x200) for exercising the resize path. -/
def demoTallImage : Image := ⟨[7], 50, 200⟩

/-- A concrete codec: decodes `demoBytes` to a 1x1 image and `[7]` to the
50x200 image matching `demoTallImage`. -/
def demoCodec : Codec where
  decode := fun bytes =>
    if bytes == demoBytes then .ok ⟨1, 1, [0]⟩
    else if bytes == [7] then .ok ⟨50, 200, [1]⟩
    else .error (.image "unsupported")
  scale := fun img w h _ => w :: h :: img.pixels
  jpegEncode := fun quality img => .ok (quality :: img.pixels)

/-- A concrete container with two entries: a small image and a tall one. -/
def demoContainer : ContainerM where
  entries := ["a.png", "tall.png"]
  getImage := fun entry =>
    if entry == "a.png" then .ok ⟨demoBytes, 1, 1⟩
    else if entry == "tall.png" then .ok demoTallImage
    else .error (.entryNotFound entry)
  getThumbnail := fun entry =>
    if entry == "a.png" then .ok ⟨[3], 1, 1⟩
    else .error (.entryNotFound entry)

/-! ### Auxiliary notions used only in statements and proofs -/

/-- The width `resize_image` produces for a `w`x`h` source bounded to height
`maxH`: the aspect-preserving width, rounded, at least 1. -/
def aspect_width (w maxH h : Nat) : Nat :=
  max (roundNat ((w : ℚ) * (maxH : ℚ) / (h : ℚ))) 1

/-- Sort key of a token: digit runs sit between the characters below `'0'`
and those above `'9'` (ASCII digits are contiguous), runs ordered by value. -/
def toKey : Tok → Nat × Nat
  | .num n => (1, n)
  | .chr c => if c.toNat < 48 then (0, c.toNat) else (2, c.toNat)

/-- Strict lexicographic order on sort keys. -/
def keyLt (x y : Nat × Nat) : Prop :=
  x.1 < y.1 ∨ (x.1 = y.1 ∧ x.2 < y.2)

/-! ## Helper lemmas -/

theorem cmpTok_eq_iff (x y : Tok) : cmpTok x y = .eq ↔ toKey x = toKey y := by
  cases x <;> cases y <;>
    simp only [cmpTok, toKey, Nat.compare_eq_eq, Prod.mk.injEq] <;>
    (try split_ifs) <;> simp_all <;> omega

theorem cmpTok_lt_iff (x y : Tok) : cmpTok x y = .lt ↔ keyLt (toKey x) (toKey y) := by
  cases x <;> cases y <;>
    simp only [cmpTok, toKey, keyLt, Nat.compare_eq_lt, Prod.mk.injEq] <;>
    (try split_ifs) <;> simp_all <;> omega

theorem cmpTok_swap (x y : Tok) : cmpTok y x = (cmpTok x y).swap := by
  cases x <;> cases y
  case num.num => exact (Nat.compare_swap _ _).symm
  case chr.chr => exact (Nat.compare_swap _ _).symm
  case num.chr n c => by_cases h : c.toNat < 48 <;> simp [cmpTok, h, Ordering.swap]
  case chr.num c n => by_cases h : c.toNat < 48 <;> simp [cmpTok, h, Ordering.swap]

theorem keyLt_trans {x y z : Nat × Nat} (h1 : keyLt x y) (h2 : keyLt y z) :
    keyLt x z := by
  rcases h1 with h1 | ⟨h1, h1'⟩ <;> rcases h2 with h2 | ⟨h2, h2'⟩ <;>
    simp only [keyLt] <;> omega

theorem cmpTok_lt_of_lt_of_eq {x y z : Tok} (h1 : cmpTok x y = .lt)
    (h2 : cmpTok y z = .eq) : cmpTok x z = .lt := by
  rw [cmpTok_lt_iff] at h1 ⊢
  rw [cmpTok_eq_iff] at h2
  rwa [← h2]

theorem cmpTok_lt_of_eq_of_lt {x y z : Tok} (h1 : cmpTok x y = .eq)
    (h2 : cmpTok y z = .lt) : cmpTok x z = .lt := by
  rw [cmpTok_lt_iff] at h2 ⊢
  rw [cmpTok_eq_iff] at h1
  rwa [h1]

theorem cmpTok_lt_trans {x y z : Tok} (h1 : cmpTok x y = .lt)
    (h2 : cmpTok y z = .lt) : cmpTok x z = .lt := by
  rw [cmpTok_lt_iff] at h1 h2 ⊢
  exact keyLt_trans h1 h2

theorem cmpTok_eq_trans {x y z : Tok} (h1 : cmpTok x y = .eq)
    (h2 : cmpTok y z = .eq) : cmpTok x z = .eq := by
  rw [cmpTok_eq_iff] at h1 h2 ⊢
  exact h1.trans h2

theorem lexCompare_swap : ∀ xs ys : List Tok, lexCompare ys xs = (lexCompare xs ys).swap
  | [], [] => rfl
  | [], _ :: _ => rfl
  | _ :: _, [] => rfl
  | x :: xs, y :: ys => by
    simp only [lexCompare, cmpTok_swap x y]
    rcases h : cmpTok x y <;> simp [Ordering.swap, lexCompare_swap xs ys]

theorem lexCompare_trans_ne_gt :
    ∀ xs ys zs : List Tok, lexCompare xs ys ≠ .gt → lexCompare ys zs ≠ .gt →
      lexCompare xs zs ≠ .gt
  | [], _, [] => fun _ _ => by simp [lexCompare]
  | [], _, _ :: _ => fun _ _ => by simp [lexCompare]
  | _ :: _, [], _ => fun h1 _ => absurd rfl h1
  | _ :: _, _ :: _, [] => fun _ h2 => absurd rfl h2
  | x :: xs, y :: ys, z :: zs => by
    intro h1 h2
    simp only [lexCompare] at h1 h2 ⊢
    rcases hxy : cmpTok x y with _ | _ | _ <;> rw [hxy] at h1 <;>
      rcases hyz : cmpTok y z with _ | _ | _ <;> rw [hyz] at h2
    · rw [cmpTok_lt_trans hxy hyz]; exact fun h => Ordering.noConfusion h
    · rw [cmpTok_lt_of_lt_of_eq hxy hyz]; exact fun h => Ordering.noConfusion h
    · exact absurd rfl h2
    · rw [cmpTok_lt_of_eq_of_lt hxy hyz]; exact fun h => Ordering.noConfusion h
    · rw [cmpTok_eq_trans hxy hyz]
      exact lexCompare_trans_ne_gt xs ys zs h1 h2
    · exact absurd rfl h2
    · exact absurd rfl h1
    · exact absurd rfl h1
    · exact absurd rfl h1

theorem natLeR_trans : ∀ a b c : String, NatLeR a b → NatLeR b c → NatLeR a c :=
  fun _ _ _ hab hbc => lexCompare_trans_ne_gt _ _ _ hab hbc

theorem natLeR_total : ∀ a b : String, NatLeR a b ∨ NatLeR b a := by
  intro a b
  show lexCompare _ _ ≠ _ ∨ lexCompare _ _ ≠ _
  rcases h : lexCompare (tokenize (lowerChars a)) (tokenize (lowerChars b))
  · exact Or.inl (fun hc => Ordering.noConfusion hc)
  · exact Or.inl (fun hc => Ordering.noConfusion hc)
  · refine Or.inr ?_
    rw [lexCompare_swap, h]
    decide

theorem cacheGet_cacheInsert (cache : Cache) (entry : String) (image : Image) :
    cacheGet (cacheInsert cache entry image) entry = some image := by
  simp [cacheGet, cacheInsert, List.find?]

theorem roundNat_natCast (n : Nat) : roundNat (n : ℚ) = n := by
  unfold roundNat
  rw [round_natCast]
  exact Int.toNat_natCast n

theorem roundNat_mono {p q : ℚ} (h : p ≤ q) : roundNat p ≤ roundNat q := by
  unfold roundNat
  refine Int.toNat_le_toNat ?_
  rw [round_eq, round_eq]
  exact Int.floor_le_floor (by linarith)

/-- For a source of positive width `w ≤ u32::MAX` and height `h ≤ u32::MAX`
strictly taller than the positive bound `maxH`, `resize_dimensions` under the
bounds `(u32::MAX, maxH)` yields exactly height `maxH` and the rounded
aspect-preserving width. -/
theorem resize_dimensions_height_bound (w h maxH : Nat)
    (hw : 0 < w) (hwle : w ≤ u32Max) (hhle : h ≤ u32Max)
    (hm : 0 < maxH) (hlt : maxH < h) :
    resize_dimensions w h u32Max maxH = (aspect_width w maxH h, maxH) := by
  have h0 : (0 : ℚ) < (h : ℚ) := by exact_mod_cast Nat.lt_of_lt_of_le hm hlt.le
  have hw0 : (0 : ℚ) < (w : ℚ) := by exact_mod_cast hw
  have hr1 : (maxH : ℚ) / (h : ℚ) < 1 := by
    rw [div_lt_one h0]
    exact_mod_cast hlt
  have hr2 : (1 : ℚ) ≤ (u32Max : ℚ) / (w : ℚ) := by
    rw [le_div_iff₀ hw0]
    simpa using (by exact_mod_cast hwle : (w : ℚ) ≤ (u32Max : ℚ))
  have hmin : min ((u32Max : ℚ) / (w : ℚ)) ((maxH : ℚ) / (h : ℚ)) =
      (maxH : ℚ) / (h : ℚ) := min_eq_right (hr1.le.trans hr2)
  have hhv : (h : ℚ) * ((maxH : ℚ) / (h : ℚ)) = (maxH : ℚ) := by
    field_simp
  have hnh : max (roundNat ((h : ℚ) * ((maxH : ℚ) / (h : ℚ)))) 1 = maxH := by
    rw [hhv, roundNat_natCast]
    omega
  have hwv : (w : ℚ) * ((maxH : ℚ) / (h : ℚ)) = (w : ℚ) * (maxH : ℚ) / (h : ℚ) :=
    (mul_div_assoc ..).symm
  have hnww : roundNat ((w : ℚ) * ((maxH : ℚ) / (h : ℚ))) ≤ w := by
    have hle : (w : ℚ) * ((maxH : ℚ) / (h : ℚ)) ≤ (w : ℚ) := by
      nlinarith [hr1.le, hw0.le, div_nonneg (by positivity : (0:ℚ) ≤ (maxH:ℚ)) h0.le]
    calc roundNat ((w : ℚ) * ((maxH : ℚ) / (h : ℚ))) ≤ roundNat ((w : ℚ)) :=
          roundNat_mono hle
      _ = w := roundNat_natCast w
  simp only [resize_dimensions, hmin]
  rw [if_neg (by omega), if_neg (by omega)]
  rw [hnh]
  unfold aspect_width
  rw [hwv]

/-! ## Claim theorems -/

/-- C1.  The claim says the preload pool has `max(1, n/2)` threads for every
CPU count `n ≥ 1`.  The code (`image_loader_pool_threads`) computes
`min(1, n/2)` instead: 1 thread on every machine with at least 2 cores
(against the claimed `n/2`), and 0 on a single-core machine, where
`ThreadPool::new(0)` panics.  The code's own comment ("Use half of the
available CPU cores for preloading") matches the claim, so the `min` is a
slip in the code. -/
theorem c1_pool_size_min_slip :
    image_loader_pool_threads 4 = 1 ∧ spec_pool_threads 4 = 2 ∧
    image_loader_pool_threads 16 = 1 ∧ spec_pool_threads 16 = 8 ∧
    image_loader_pool_threads 1 = 0 ∧ spec_pool_threads 1 = 1 ∧
    ∀ n : Nat, image_loader_pool_threads n ≤ 1 := by
  refine ⟨rfl, rfl, rfl, rfl, rfl, rfl, fun n => ?_⟩
  exact Nat.min_le_left 1 (n / 2)

/-- C2.  `is_supported_format` returns `true` exactly when the lowercased
filename ends in `.pdf`, `.rar`, `.zip` or `.epub`; in particular it accepts
`"x.epub"` (and the other spec examples) and rejects `"x.txt"`, `"x"` and the
empty string. -/
theorem c2_is_supported_format_spec :
    (∀ filename : String,
      is_supported_format filename = true ↔
        (".pdf".data <:+ lowerChars filename ∨
         ".rar".data <:+ lowerChars filename ∨
         ".zip".data <:+ lowerChars filename ∨
         ".epub".data <:+ lowerChars filename)) ∧
    is_supported_format "x.epub" = true ∧
    is_supported_format "x.PDF" = true ∧
    is_supported_format "x.rar" = true ∧
    is_supported_format "x.ZIP" = true ∧
    is_supported_format "x.txt" = false ∧
    is_supported_format "x" = false ∧
    is_supported_format "" = false := by
  refine ⟨fun filename => ?_, by decide, by decide, by decide, by decide,
    by decide, by decide, by decide⟩
  simp [is_supported_format, endsWithChars, Bool.or_eq_true,
    List.isSuffixOf_iff_suffix, or_assoc]

/-- C10.  `EpubContainer::is_novel` returns `false` whenever the EPUB cannot
be opened; when it opens, it returns `true` exactly when the first
`rendition:layout` metadata entry is absent or carries a value other than
`"pre-paginated"`. -/
theorem c10_is_novel_spec :
    EpubContainer.is_novel none = false ∧
    ∀ epub : EpubData,
      (EpubContainer.is_novel (some epub) = true ↔
        (epub.metadata.find? (fun meta => meta.1 == "rendition:layout") = none ∨
         ∃ p v, epub.metadata.find? (fun meta => meta.1 == "rendition:layout")
             = some (p, v) ∧ v ≠ "pre-paginated")) := by
  refine ⟨rfl, fun epub => ?_⟩
  unfold EpubContainer.is_novel
  rcases h : epub.metadata.find? (fun meta => meta.1 == "rendition:layout") with _ | ⟨p, v⟩
  · simp [h]
  · simp only [h, bne_iff_ne, ne_eq, reduceCtorEq, Option.some.injEq,
      Prod.mk.injEq, false_or]
    constructor
    · exact fun hv => ⟨p, v, ⟨rfl, rfl⟩, hv⟩
    · rintro ⟨p', v', ⟨rfl, rfl⟩, hv⟩
      exact hv

/-- C6.  If `get_image` succeeds with image `i` and cache `c`, then the entry
is in `c`, and a second call on `c` succeeds with the identical image and
cache — under *any* codec, container and resize policy, i.e. the second call
is served purely from the cache without invoking the `Container`. -/
theorem c6_get_image_idempotent :
    ∀ (codec : Codec) (container : ContainerM) (maxH : Nat) (m : FilterType)
      (cache : Cache) (entry : String) (image : Image) (cache' : Cache),
      get_image codec container maxH m cache entry = .ok (image, cache') →
      (get_image_from_cache cache' entry = some image ∧
       ∀ (codec' : Codec) (container' : ContainerM) (maxH' : Nat)
         (m' : FilterType),
         get_image codec' container' maxH' m' cache' entry =
           .ok (image, cache')) := by
  intro codec container maxH m cache entry image cache' h
  have hx : get_image_from_cache cache' entry = some image := by
    unfold get_image at h
    rcases hc : get_image_from_cache cache entry with _ | img <;> rw [hc] at h
    · rcases hl : load_image codec container entry maxH m with e | img2 <;>
        rw [hl] at h
      · cases h
      · simp only [Except.ok.injEq, Prod.mk.injEq] at h
        obtain ⟨rfl, rfl⟩ := h
        exact cacheGet_cacheInsert cache entry img2
    · simp only [Except.ok.injEq, Prod.mk.injEq] at h
      obtain ⟨rfl, rfl⟩ := h
      exact hc
  refine ⟨hx, fun codec' container' maxH' m' => ?_⟩
  unfold get_image
  rw [hx]

/-- C6 witness: a concrete first call, and the second call served from the
resulting cache under arbitrary parameters. -/
theorem c6_witness :
    get_image demoCodec demoContainer 0 .nearest [] "a.png" =
      .ok (⟨demoBytes, 1, 1⟩, [("a.png", ⟨demoBytes, 1, 1⟩)]) ∧
    get_image_from_cache [("a.png", (⟨demoBytes, 1, 1⟩ : Image))] "a.png" =
      some ⟨demoBytes, 1, 1⟩ := by
  have h : get_image demoCodec demoContainer 0 .nearest [] "a.png" =
      .ok (⟨demoBytes, 1, 1⟩, [("a.png", ⟨demoBytes, 1, 1⟩)]) := by rfl
  exact ⟨h, (c6_get_image_idempotent demoCodec demoContainer 0 .nearest []
    "a.png" _ _ h).1⟩

/-- C7.  `get_preview_image` returns `none` exactly when the full image is
cached; otherwise it returns exactly the container's thumbnail outcome; and
in every successful case the cache comes back unchanged. -/
theorem c7_preview_frame :
    ∀ (container : ContainerM) (cache : Cache) (entry : String),
      (∀ img, get_image_from_cache cache entry = some img →
        get_preview_image container cache entry = .ok (none, cache)) ∧
      (get_image_from_cache cache entry = none →
        get_preview_image container cache entry =
          (container.getThumbnail entry).map (fun t => (some t, cache))) ∧
      (∀ r cache', get_preview_image container cache entry = .ok (r, cache') →
        cache' = cache) ∧
      (∀ cache', get_preview_image container cache entry = .ok (none, cache') →
        ∃ img, get_image_from_cache cache entry = some img) := by
  intro container cache entry
  refine ⟨fun img hc => ?_, fun hc => ?_, fun r cache' h => ?_, fun cache' h => ?_⟩
  · unfold get_preview_image
    rw [hc]
  · unfold get_preview_image
    rw [hc]
    rcases container.getThumbnail entry with e | t <;> rfl
  · unfold get_preview_image at h
    rcases hc : get_image_from_cache cache entry with _ | img <;> rw [hc] at h
    · rcases ht : container.getThumbnail entry with e | t <;> rw [ht] at h
      · cases h
      · simp only [Except.ok.injEq, Prod.mk.injEq] at h
        exact h.2.symm
    · simp only [Except.ok.injEq, Prod.mk.injEq] at h
      exact h.2.symm
  · unfold get_preview_image at h
    rcases hc : get_image_from_cache cache entry with _ | img <;> rw [hc] at h
    · rcases ht : container.getThumbnail entry with e | t <;> rw [ht] at h
      · cases h
      · simp only [Except.ok.injEq, Prod.mk.injEq, reduceCtorEq, false_and] at h
    · exact ⟨img, rfl⟩

/-- C7 witness: a cached entry yields `none` with the cache unchanged; an
uncached entry yields the container's thumbnail. -/
theorem c7_witness :
    get_image_from_cache [("a.png", (⟨demoBytes, 1, 1⟩ : Image))] "a.png" =
      some ⟨demoBytes, 1, 1⟩ ∧
    get_preview_image demoContainer [("a.png", ⟨demoBytes, 1, 1⟩)] "a.png" =
      .ok (none, [("a.png", ⟨demoBytes, 1, 1⟩)]) ∧
    get_image_from_cache [] "a.png" = none ∧
    get_preview_image demoContainer [] "a.png" =
      (demoContainer.getThumbnail "a.png").map (fun t => (some t, [])) := by
  refine ⟨by rfl, ?_, by rfl, ?_⟩
  · exact (c7_preview_frame demoContainer [("a.png", ⟨demoBytes, 1, 1⟩)]
      "a.png").1 ⟨demoBytes, 1, 1⟩ (by rfl)
  · exact ((c7_preview_frame demoContainer [] "a.png").2).1 (by rfl)

/-- C8.  A preload task whose captured token is already cancelled returns the
cache untouched (for every codec and container, so in particular it performs
no load and no insert); a task whose load fails also returns the cache
untouched, and its return type (`Cache`, not a `Result`) propagates no
error. -/
theorem c8_preload_task_semantics :
    ∀ (codec : Codec) (container : ContainerM) (maxH : Nat) (m : FilterType)
      (cache : Cache) (entry : String),
      run_preload_task codec container maxH m cache true entry = cache ∧
      (∀ e : Err, load_image codec container entry maxH m = .error e →
        run_preload_task codec container maxH m cache false entry = cache) := by
  intro codec container maxH m cache entry
  constructor
  · rfl
  · intro e he
    unfold run_preload_task
    rw [if_neg (by simp)]
    rw [he]

/-- C8 witness: a cancelled task over the demo fixtures, and a failing load
(`"missing"` is not a demo entry) that inserts nothing. -/
theorem c8_witness :
    run_preload_task demoCodec demoContainer 0 .nearest [] true "missing" = [] ∧
    load_image demoCodec demoContainer "missing" 0 .nearest =
      .error (.entryNotFound "missing") ∧
    run_preload_task demoCodec demoContainer 0 .nearest [] false "missing" = [] := by
  have h := c8_preload_task_semantics demoCodec demoContainer 0 .nearest [] "missing"
  exact ⟨h.1, by rfl, h.2 (.entryNotFound "missing") (by rfl)⟩

/-- C4 counterexample: a `request_preload` call whose computed range is empty
(count = 0) returns with the previous generation's token still uncancelled
(`false`), contradicting the claim that every call first cancels it. -/
theorem c4_counterexample :
    request_preload demoContainer ⟨[], [false], 0⟩ 0 0 = (⟨[], [false], 0⟩, []) ∧
    (request_preload demoContainer ⟨[], [false], 0⟩ 0 0).1.tokens = [false] := by
  exact ⟨rfl, rfl⟩

/-- C4 (amended).  A call whose computed range is empty returns immediately,
leaving the state (token included) untouched and scheduling nothing; a call
with a non-empty range cancels the previous generation's token, installs a
fresh uncancelled token, and schedules one task per not-already-cached entry
of the range, each task capturing the fresh token. -/
theorem c4_request_preload_amended :
    ∀ (container : ContainerM) (s : LoaderState) (begin_index count : Nat),
      s.current < s.tokens.length →
      ((min (begin_index + count) container.entries.length ≤ begin_index →
          request_preload container s begin_index count = (s, [])) ∧
       (begin_index < min (begin_index + count) container.entries.length →
          (((request_preload container s begin_index count).1.tokens[s.current]? =
              some true) ∧
           (request_preload container s begin_index count).1.current =
             s.tokens.length ∧
           ((request_preload container s begin_index count).1.tokens[
              s.tokens.length]? = some false) ∧
           (request_preload container s begin_index count).1.cache = s.cache ∧
           (request_preload container s begin_index count).2 =
             (((container.entries.drop begin_index).take
                 (min (begin_index + count) container.entries.length -
                   begin_index)).filter
               (fun en => (cacheGet s.cache en).isNone)).map
               (fun en => ⟨en, s.tokens.length⟩)))) := by
  intro container s begin_index count hcur
  constructor
  · intro he
    unfold request_preload
    rw [if_pos he]
  · intro hb
    have hne : ¬ (min (begin_index + count) container.entries.length ≤
        begin_index) := by omega
    unfold request_preload
    rw [if_neg hne]
    refine ⟨?_, ?_, ?_, rfl, ?_⟩
    · rw [List.getElem?_append_left (by simpa [cancel_preload] using hcur)]
      exact List.getElem?_set_self hcur
    · simp [cancel_preload]
    · have hlen : (cancel_preload s).tokens.length = s.tokens.length := by
        simp [cancel_preload]
      rw [show ((cancel_preload s).tokens ++ [false])[s.tokens.length]? =
          ((cancel_preload s).tokens ++ [false])[(cancel_preload s).tokens.length]?
        from by rw [hlen]]
      exact List.getElem?_concat_length _ _
    · simp [cancel_preload]

/-- C4 witness: a non-empty preload over the demo container from a state with
one live token: the old token is cancelled and a fresh one installed. -/
theorem c4_witness :
    (0 : Nat) < (⟨[], [false], 0⟩ : LoaderState).tokens.length ∧
    0 < min (0 + 1) demoContainer.entries.length ∧
    (request_preload demoContainer ⟨[], [false], 0⟩ 0 1).1.tokens[0]? =
      some true := by
  refine ⟨by decide, by decide, ?_⟩
  exact ((c4_request_preload_amended demoContainer ⟨[], [false], 0⟩ 0 1
    (by decide)).2 (by decide)).1

/-- C5.  For a loaded source image whose decoded dimensions match its probed
ones (the `Image` construction invariant) and lie in the `u32` range: when
`max_image_height > 0` and the source is taller, the load path re-encodes the
image scaled to height exactly `max_image_height` and the rounded
aspect-preserving width as JPEG at quality 80 — returning that image when the
encoder succeeds and propagating the encoder's error when it fails;
otherwise the original image is returned unchanged. -/
theorem c5_resize_policy :
    ∀ (codec : Codec) (container : ContainerM) (entry : String) (maxH : Nat)
      (m : FilterType) (image : Image) (decoded : DynImage),
      container.getImage entry = .ok image →
      codec.decode image.data = .ok decoded →
      decoded.width = image.width →
      decoded.height = image.height →
      0 < image.width →
      image.width ≤ u32Max →
      image.height ≤ u32Max →
      ((0 < maxH → maxH < image.height →
        ((∀ buffer : List Nat,
            codec.jpegEncode 80
                ⟨aspect_width image.width maxH image.height, maxH,
                 codec.scale decoded
                   (aspect_width image.width maxH image.height) maxH m⟩ =
              .ok buffer →
            load_image codec container entry maxH m =
              .ok ⟨buffer, aspect_width image.width maxH image.height,
                   maxH⟩) ∧
         (∀ e : Err,
            codec.jpegEncode 80
                ⟨aspect_width image.width maxH image.height, maxH,
                 codec.scale decoded
                   (aspect_width image.width maxH image.height) maxH m⟩ =
              .error e →
            load_image codec container entry maxH m = .error e))) ∧
       ((maxH = 0 ∨ image.height ≤ maxH) →
        load_image codec container entry maxH m = .ok image)) := by
  intro codec container entry maxH m image decoded hget hdec hdw hdh hw hwle hhle
  constructor
  · intro hm hh
    have hres : dyn_resize codec decoded u32Max maxH m =
        ⟨aspect_width image.width maxH image.height, maxH,
         codec.scale decoded (aspect_width image.width maxH image.height)
           maxH m⟩ := by
      unfold dyn_resize
      rw [if_neg (by rw [hdh]; omega)]
      rw [hdw, hdh,
        resize_dimensions_height_bound image.width image.height maxH hw hwle
          hhle hm hh]
    constructor
    · intro buffer henc
      simp only [load_image, hget]
      rw [if_pos ⟨hm, hh⟩]
      simp only [resize_image, hdec, hres, henc]
    · intro e henc
      simp only [load_image, hget]
      rw [if_pos ⟨hm, hh⟩]
      simp only [resize_image, hdec, hres, henc]
  · intro hcase
    simp only [load_image, hget]
    rw [if_neg (by omega)]

/-- C5 witness: the 50x200 demo image bounded to height 100 comes back as
25x100 re-encoded at quality 80 (the demo encoder succeeds with the concrete
buffer); bounded to height 0 (unbounded) it is returned unchanged. -/
theorem c5_witness :
    (0 : Nat) < 100 ∧ (100 : Nat) < demoTallImage.height ∧
    demoCodec.jpegEncode 80
        ⟨aspect_width demoTallImage.width 100 demoTallImage.height, 100,
         demoCodec.scale ⟨50, 200, [1]⟩
           (aspect_width demoTallImage.width 100 demoTallImage.height) 100
           .lanczos3⟩ = .ok [80, 25, 100, 1] ∧
    load_image demoCodec demoContainer "tall.png" 100 .lanczos3 =
      .ok ⟨[80, 25, 100, 1],
           aspect_width demoTallImage.width 100 demoTallImage.height, 100⟩ ∧
    load_image demoCodec demoContainer "tall.png" 0 .lanczos3 =
      .ok demoTallImage := by
  have h := c5_resize_policy demoCodec demoContainer "tall.png" 100 .lanczos3
    demoTallImage ⟨50, 200, [1]⟩ (by rfl) (by rfl) (by rfl) (by rfl)
    (by decide) (by decide) (by decide)
  have h0 := c5_resize_policy demoCodec demoContainer "tall.png" 0 .lanczos3
    demoTallImage ⟨50, 200, [1]⟩ (by rfl) (by rfl) (by rfl) (by rfl)
    (by decide) (by decide) (by decide)
  have haw : aspect_width demoTallImage.width 100 demoTallImage.height = 25 := by
    show aspect_width 50 100 200 = 25
    unfold aspect_width
    have h1 : ((50 : ℕ) : ℚ) * ((100 : ℕ) : ℚ) / ((200 : ℕ) : ℚ) =
        ((25 : ℕ) : ℚ) := by norm_num
    rw [h1, roundNat_natCast]
    decide
  have henc : demoCodec.jpegEncode 80
      ⟨aspect_width demoTallImage.width 100 demoTallImage.height, 100,
       demoCodec.scale ⟨50, 200, [1]⟩
         (aspect_width demoTallImage.width 100 demoTallImage.height) 100
         .lanczos3⟩ = .ok [80, 25, 100, 1] := by
    rw [haw]
    rfl
  exact ⟨by decide, by decide, henc,
    (h.1 (by decide) (by decide)).1 [80, 25, 100, 1] henc,
    h0.2 (Or.inl rfl)⟩

/-- C3 counterexample: `ZipContainer::load_image` resolves the identifier
against the whole archive, not the entry list.  `"notes.txt"` (a valid image
stored under a non-image name) is not in the container's entry list, yet
`load_image` succeeds instead of returning any error at all — in particular
not an `EntryNotFound`. -/
theorem c3_counterexample :
    zip_entries ["notes.txt"] = [] ∧
    ("notes.txt" ∈ zip_entries ["notes.txt"] → False) ∧
    zip_load_image demoProbe "comic.zip" [⟨"notes.txt", demoBytes⟩]
      "notes.txt" = .ok ⟨demoBytes, 1, 1⟩ := by
  exact ⟨by decide, by decide, by rfl⟩

/-- C3 (amended).  `EpubContainer::load_image` returns the `EntryNotFound`
error kind for every identifier matching no manifest image resource;
`ZipContainer::load_image` resolves identifiers against the whole archive:
an identifier absent from the archive yields a generic `ContainerError`
("Failed to get entry") — its error type has no kinds — and an identifier
present in the archive but filtered out of the entry list may even succeed. -/
theorem c3_missing_entry_amended :
    (∀ (probe : Probe) (epub : EpubData) (entry : String),
      (∀ r ∈ epub.images, r.key.getD "" ≠ entry) →
      epub_load_image probe epub entry =
        .error (.entryNotFound ("[EPUB] Resource not found: " ++ entry))) ∧
    (∀ (probe : Probe) (path : String) (archive : List ZipEntryData)
       (entry : String),
      (∀ e ∈ archive, e.name ≠ entry) →
      zip_load_image probe path archive entry =
        .error ⟨"Failed to get entry. ", some path, some entry⟩) := by
  constructor
  · intro probe epub entry habs
    have hfind : epubFindImage epub entry = none := by
      unfold epubFindImage
      rw [List.find?_eq_none]
      intro r hr
      simpa using habs r hr
    simp only [epub_load_image, hfind]
  · intro probe path archive entry habs
    have hfind : archive.find? (fun e => e.name == entry) = none := by
      rw [List.find?_eq_none]
      intro e he
      simpa using habs e he
    simp only [zip_load_image, zipByName, hfind]
    rfl

/-- C3 witness: the amended claim applied to a concrete EPUB (resource key
`"cover"`, asked for `"missing"`) and a concrete one-member archive asked
for an identifier it does not contain. -/
theorem c3_witness :
    (∀ r ∈ [({ key := some "cover", bytes := .ok demoBytes } : EpubResource)],
       r.key.getD "" ≠ "missing") ∧
    epub_load_image demoProbe ⟨[⟨some "cover", .ok demoBytes⟩], []⟩ "missing" =
      .error (.entryNotFound "[EPUB] Resource not found: missing") ∧
    zip_load_image demoProbe "comic.zip" [⟨"a.png", demoBytes⟩] "missing" =
      .error ⟨"Failed to get entry. ", some "comic.zip", some "missing"⟩ := by
  refine ⟨by decide, ?_, ?_⟩
  · exact (c3_missing_entry_amended.1 demoProbe ⟨[⟨some "cover", .ok demoBytes⟩], []⟩
      "missing" (by decide))
  · exact (c3_missing_entry_amended.2 demoProbe "comic.zip" [⟨"a.png", demoBytes⟩]
      "missing" (by decide))

/-- C9.  The entry lists `DirectoryContainer` and `ZipContainer` build at
construction are sorted in the case-insensitive natural order (digit runs
compared numerically) and are permutations of the supported-image-name
inputs; in particular `["10.png","2.png","1.png"]` comes out as
`["1.png","2.png","10.png"]`. -/
theorem c9_natural_order :
    (∀ names : List String,
      (zip_entries names).Sorted NatLeR ∧
      List.Perm (zip_entries names)
        (names.filter Image.is_supported_format)) ∧
    (∀ files : List DirEntryFs,
      (directory_entries files).Sorted NatLeR ∧
      List.Perm (directory_entries files)
        ((((files.filter (fun f => !f.isDir)).map (fun f => f.name)).filter
           Image.is_supported_format))) ∧
    zip_entries ["10.png", "2.png", "1.png"] = ["1.png", "2.png", "10.png"] ∧
    directory_entries
        [⟨"10.png", false⟩, ⟨"2.png", false⟩, ⟨"1.png", false⟩] =
      ["1.png", "2.png", "10.png"] := by
  haveI : IsTrans String NatLeR := ⟨natLeR_trans⟩
  haveI : IsTotal String NatLeR := ⟨natLeR_total⟩
  refine ⟨fun names => ⟨?_, ?_⟩, fun files => ⟨?_, ?_⟩, by decide, by decide⟩
  · exact List.sorted_insertionSort NatLeR _
  · exact List.perm_insertionSort NatLeR _
  · exact List.sorted_insertionSort NatLeR _
  · exact List.perm_insertionSort NatLeR _

end RookReader
